import Mathlib

set_option autoImplicit false
set_option maxRecDepth 100000

namespace LensLore

/-! # Data model

Shallow embedding of the LensLore AR history guide (src/types.ts,
src/services/geminiService.ts, src/App.tsx).  The remote model responses are
inputs to the embedded functions; JavaScript truthiness on strings
(`undefined` and `""` are both falsy) is modelled by `Option String`
together with `jsOrStr`. -/

/-- From src/types.ts: the vision-step result type.  Note that
`identifyLandmark` merely casts `JSON.parse`'s result to this type, so the
runtime value is an arbitrary JSON value; the embedding of
`identifyLandmark` therefore returns a `JsonValue`. -/
structure LandmarkAnalysisResult where
  name : String
  visualDescription : String
deriving DecidableEq, Repr

/-- A cited web source entry `{ title, uri }` as built in
`getLandmarkDetails` (src/services/geminiService.ts). -/
structure Source where
  title : String
  uri : String
deriving DecidableEq, Repr

/-- From src/types.ts: description text plus cited sources. -/
structure LandmarkFullDetails where
  description : String
  sources : List Source
deriving DecidableEq, Repr

/-- The `web` part of a grounding chunk.  The code accesses
`c.web?.title` and `c.web?.uri` defensively, so both fields are modelled
as optional. -/
structure Web where
  uri : Option String
  title : Option String
deriving DecidableEq, Repr

/-- From src/types.ts: one grounding-metadata citation chunk. -/
structure GroundingChunk where
  web : Option Web
deriving DecidableEq, Repr

/-- JavaScript `x || d` on an optional string: `undefined` and the empty
string are falsy, every other string is returned unchanged. -/
def jsOrStr (x : Option String) (d : String) : String :=
  match x with
  | none => d
  | some s => if s = "" then d else s

/-- `getLandmarkDetails`: `{ title: c.web?.title || "Source", uri: c.web?.uri || "" }`. -/
def chunkToSource (c : GroundingChunk) : Source :=
  { title := jsOrStr (c.web.bind Web.title) "Source"
    uri := jsOrStr (c.web.bind Web.uri) "" }

/-- `getLandmarkDetails`: `chunks.map(...).filter((s) => s.uri !== "")`. -/
def sourcesOf (chunks : List GroundingChunk) : List Source :=
  (chunks.map chunkToSource).filter (fun s => s.uri ≠ "")

/-- JavaScript `Map.prototype.set`: if the key is already present its value
is replaced in place (the key keeps its original position); otherwise the
pair is appended at the end. -/
def mapSet : List (String × Source) → String → Source → List (String × Source)
  | [], k, v => [(k, v)]
  | p :: m, k, v => if p.1 = k then (k, v) :: m else p :: mapSet m k v

/-- Building `new Map(sources.map((item) => [item.uri, item]))`: the entry
list is traversed in order, calling `set` for each `[uri, item]` pair. -/
def dedupLoop : List (String × Source) → List Source → List (String × Source)
  | m, [] => m
  | m, s :: l => dedupLoop (mapSet m s.uri s) l

/-- `Array.from(new Map(sources.map((item) => [item.uri, item])).values())`
from `getLandmarkDetails`: deduplicate by uri via a JS `Map`, then take the
values in the map's insertion order. -/
def uniqueSources (l : List Source) : List Source :=
  (dedupLoop [] l).map Prod.snd

/-- Last element of a list, with a default (used to state what the `Map`
dedup retains for a duplicated key). -/
def lastD : List Source → Source → Source
  | [], d => d
  | s :: l, _ => lastD l s

/-- Last element of a list, if any. -/
def myLast? : List Source → Option Source
  | [] => none
  | s :: l => some (lastD l s)

/-- Specification-side helper: keep the first occurrence of every string,
preserving first-seen order. -/
def dedupFirst : List String → List String
  | [] => []
  | u :: us => u :: dedupFirst (us.filter (fun v => v ≠ u))
termination_by l => l.length
decreasing_by
  simp only [List.length_cons]
  exact Nat.lt_succ_of_le (List.length_filter_le _ _)

/-! # A model of the platform's JSON.parse

`identifyLandmark` calls the JavaScript builtin `JSON.parse` on the model's
response text and casts the result without any schema check.  The builtin is
modelled here by a recursive-descent parser of the ECMA-404 JSON grammar
(whitespace, strings with escapes, numbers, literals, arrays, objects).
Numeric literals are kept as their source text (their numeric value is never
used by the code under verification). -/

/-- A parsed JSON value.  `num` keeps the literal text of the number. -/
inductive JsonValue where
  | null : JsonValue
  | bool : Bool → JsonValue
  | num : String → JsonValue
  | str : String → JsonValue
  | arr : List JsonValue → JsonValue
  | obj : List (String × JsonValue) → JsonValue
deriving Repr

/-- The two brace characters, by code point. -/
def lbrace : Char := Char.ofNat 123

/-- Closing brace, by code point. -/
def rbrace : Char := Char.ofNat 125

/-- JSON insignificant whitespace. -/
def isJsonWs (c : Char) : Bool :=
  c = ' ' || c = '\t' || c = '\n' || c = '\r'

/-- Drop leading JSON whitespace. -/
def skipWs : List Char → List Char
  | [] => []
  | c :: cs => if isJsonWs c then skipWs cs else c :: cs

/-- Value of one hexadecimal digit. -/
def hexVal (c : Char) : Option Nat :=
  if '0' ≤ c ∧ c ≤ '9' then some (c.toNat - '0'.toNat)
  else if 'a' ≤ c ∧ c ≤ 'f' then some (c.toNat - 'a'.toNat + 10)
  else if 'A' ≤ c ∧ c ≤ 'F' then some (c.toNat - 'A'.toNat + 10)
  else none

/-- Parse the body of a JSON string literal (after the opening quote),
returning the decoded string and the input after the closing quote.
Escapes follow the JSON grammar; unescaped control characters are
rejected. -/
def parseStringBody : Nat → List Char → Option (String × List Char)
  | 0, _ => none
  | _, [] => none
  | fuel + 1, c :: cs =>
    if c = '"' then some ("", cs)
    else if c = '\\' then
      match cs with
      | [] => none
      | e :: cs2 =>
        let withChar : Char → List Char → Option (String × List Char) := fun ch rest =>
          match parseStringBody fuel rest with
          | some (s, r) => some (⟨ch :: s.data⟩, r)
          | none => none
        if e = '"' then withChar '"' cs2
        else if e = '\\' then withChar '\\' cs2
        else if e = '/' then withChar '/' cs2
        else if e = 'b' then withChar (Char.ofNat 8) cs2
        else if e = 'f' then withChar (Char.ofNat 12) cs2
        else if e = 'n' then withChar '\n' cs2
        else if e = 'r' then withChar '\r' cs2
        else if e = 't' then withChar '\t' cs2
        else if e = 'u' then
          match cs2 with
          | h1 :: h2 :: h3 :: h4 :: cs3 =>
            match hexVal h1, hexVal h2, hexVal h3, hexVal h4 with
            | some a, some b, some c2, some d =>
              withChar (Char.ofNat (((a * 16 + b) * 16 + c2) * 16 + d)) cs3
            | _, _, _, _ => none
          | _ => none
        else none
    else if c.toNat < 32 then none
    else
      match parseStringBody fuel cs with
      | some (s, r) => some (⟨c :: s.data⟩, r)
      | none => none

/-- Take a maximal run of decimal digits. -/
def takeDigits : List Char → List Char × List Char
  | [] => ([], [])
  | c :: cs =>
    if c.isDigit then
      let (d, r) := takeDigits cs
      (c :: d, r)
    else ([], c :: cs)

/-- JSON integer part: `0`, or a nonzero digit followed by digits. -/
def parseIntPart : List Char → Option (List Char × List Char)
  | [] => none
  | c :: cs =>
    if c = '0' then some ([c], cs)
    else if c.isDigit then
      let (d, r) := takeDigits cs
      some (c :: d, r)
    else none

/-- JSON optional fraction part: `.` followed by at least one digit. -/
def parseFracPart : List Char → Option (List Char × List Char)
  | '.' :: cs =>
    (match takeDigits cs with
     | ([], _) => none
     | (d, r) => some ('.' :: d, r))
  | cs => some ([], cs)

/-- JSON optional exponent part: `e`/`E`, optional sign, digits. -/
def parseExpPart : List Char → Option (List Char × List Char)
  | [] => some ([], [])
  | c :: cs =>
    if c = 'e' ∨ c = 'E' then
      let (sgn, cs2) :=
        match cs with
        | s :: r => if s = '+' ∨ s = '-' then ([s], r) else ([], s :: r)
        | [] => (([] : List Char), ([] : List Char))
      match takeDigits cs2 with
      | ([], _) => none
      | (d, r) => some (c :: (sgn ++ d), r)
    else some ([], c :: cs)

/-- A JSON number literal, returned as its source text. -/
def parseNumber (cs : List Char) : Option (String × List Char) :=
  let (neg, cs1) :=
    match cs with
    | '-' :: r => (['-'], r)
    | _ => (([] : List Char), cs)
  match parseIntPart cs1 with
  | none => none
  | some (ip, cs2) =>
    match parseFracPart cs2 with
    | none => none
    | some (fp, cs3) =>
      match parseExpPart cs3 with
      | none => none
      | some (ep, cs4) => some (⟨neg ++ ip ++ fp ++ ep⟩, cs4)

mutual

/-- Parse one JSON value (leading whitespace allowed), returning the value
and the remaining input.  The fuel bounds recursion depth. -/
def parseValue : Nat → List Char → Option (JsonValue × List Char)
  | 0, _ => none
  | fuel + 1, cs0 =>
    match skipWs cs0 with
    | 't' :: 'r' :: 'u' :: 'e' :: r => some (.bool true, r)
    | 'f' :: 'a' :: 'l' :: 's' :: 'e' :: r => some (.bool false, r)
    | 'n' :: 'u' :: 'l' :: 'l' :: r => some (.null, r)
    | '"' :: r =>
      (match parseStringBody (r.length + 1) r with
       | some (s, r2) => some (.str s, r2)
       | none => none)
    | c :: r =>
      if c = lbrace then
        match skipWs r with
        | c2 :: r2 =>
          if c2 = rbrace then some (.obj [], r2)
          else
            (match parseMembers fuel (c2 :: r2) with
             | some (fs, r3) => some (.obj fs, r3)
             | none => none)
        | [] => none
      else if c = '[' then
        match skipWs r with
        | ']' :: r2 => some (.arr [], r2)
        | r2 =>
          (match parseItems fuel r2 with
           | some (vs, r3) => some (.arr vs, r3)
           | none => none)
      else
        (match parseNumber (c :: r) with
         | some (lit, r2) => some (.num lit, r2)
         | none => none)
    | [] => none

/-- Parse the members of an object, positioned at the first non-whitespace
character of a member (a quote); consumes the closing brace. -/
def parseMembers : Nat → List Char → Option (List (String × JsonValue) × List Char)
  | 0, _ => none
  | fuel + 1, cs =>
    match cs with
    | '"' :: r =>
      (match parseStringBody (r.length + 1) r with
       | none => none
       | some (key, r2) =>
         match skipWs r2 with
         | ':' :: r3 =>
           (match parseValue fuel r3 with
            | none => none
            | some (v, r4) =>
              match skipWs r4 with
              | ',' :: r5 =>
                (match parseMembers fuel (skipWs r5) with
                 | some (fs, r6) => some ((key, v) :: fs, r6)
                 | none => none)
              | c :: r5 => if c = rbrace then some ([(key, v)], r5) else none
              | [] => none)
         | _ => none)
    | _ => none

/-- Parse the items of an array, positioned at the first item; consumes the
closing bracket. -/
def parseItems : Nat → List Char → Option (List JsonValue × List Char)
  | 0, _ => none
  | fuel + 1, cs =>
    match parseValue fuel cs with
    | none => none
    | some (v, r) =>
      match skipWs r with
      | ',' :: r2 =>
        (match parseItems fuel r2 with
         | some (vs, r3) => some (v :: vs, r3)
         | none => none)
      | ']' :: r2 => some ([v], r2)
      | _ => none

end

/-- The platform's `JSON.parse`, as a total function: `some v` when the
whole input is one JSON value (with surrounding whitespace), `none` when
`JSON.parse` would throw a `SyntaxError`. -/
def jsonParse (s : String) : Option JsonValue :=
  match parseValue (2 * s.length + 2) s.data with
  | some (v, rest) => if skipWs rest = [] then some v else none
  | none => none

/-! # Service functions (src/services/geminiService.ts)

Each service function first calls `getClient`, which throws when the
`API_KEY` environment variable is absent; the environment is passed in as
the `apiKey` flag.  The remote response is an input: for the vision step its
`text` field, for the enrichment step its `text` field and grounding chunks,
for the synthesis step the extracted inline data field.  A thrown `Error` is
modelled as `Except.error` carrying the message. -/

/-- `identifyLandmark`: throw when the key is absent; throw
"No response from vision model" when `response.text` is falsy; otherwise
return `JSON.parse(text)` (a `SyntaxError` when the text is not JSON), with
no client-side validation of the requested two-field schema. -/
def identifyLandmark (apiKey : Bool) (respText : Option String) : Except String JsonValue :=
  if apiKey = false then .error "API_KEY is missing in environment variables"
  else
    match respText with
    | none => .error "No response from vision model"
    | some t =>
      if t = "" then .error "No response from vision model"
      else
        match jsonParse t with
        | none => .error "SyntaxError: JSON.parse: unexpected input"
        | some v => .ok v

/-- `getLandmarkDetails`: throw when the key is absent; otherwise take the
response text with fallback "Could not retrieve details.", map the grounding
chunks (absent list defaulting to `[]`) to `{title, uri}` entries, drop
empty uris, and deduplicate by uri via a JS `Map`. -/
def getLandmarkDetails (apiKey : Bool) (respText : Option String)
    (chunks : Option (List GroundingChunk)) : Except String LandmarkFullDetails :=
  if apiKey = false then .error "API_KEY is missing in environment variables"
  else
    .ok { description := jsOrStr respText "Could not retrieve details."
          sources := uniqueSources (sourcesOf (chunks.getD [])) }

/-- `generateNarration`: throw when the key is absent; throw
"No audio generated" when the extracted inline data field is falsy
(absent or the empty string); otherwise return it unchanged. -/
def generateNarration (apiKey : Bool) (audioData : Option String) : Except String String :=
  if apiKey = false then .error "API_KEY is missing in environment variables"
  else
    match audioData with
    | none => .error "No audio generated"
    | some d => if d = "" then .error "No audio generated" else .ok d

/-! # App state (src/App.tsx) -/

/-- From src/types.ts: the status enum driving the view. -/
inductive AppStatus where
  | idle
  | analyzingImage
  | searchingInfo
  | generatingAudio
  | complete
  | error
deriving DecidableEq, Repr

/-- From src/types.ts: `AppError = { message: string }`. -/
structure AppError where
  message : String
deriving DecidableEq, Repr

/-- A decoded audio buffer (PCM samples); contents are irrelevant to the
orchestrator, only presence matters. -/
structure AudioBuffer where
  samples : List Int
deriving DecidableEq, Repr

/-- An `AudioBufferSourceNode`: bound to a buffer, with a stopped flag
(`stop()` sets it). -/
structure SourceNode where
  buffer : AudioBuffer
  stopped : Bool
deriving DecidableEq, Repr

/-- An `AudioContext`, created lazily with a fixed sample rate. -/
structure AudioCtx where
  sampleRate : Nat
deriving DecidableEq, Repr

/-- The React state of `App` plus its refs, as one record.  The `landmark`
field holds whatever `JSON.parse` produced in `identifyLandmark` (the
TypeScript `as` cast performs no runtime check). -/
structure AppState where
  status : AppStatus
  image : Option String
  error : Option AppError
  landmark : Option JsonValue
  details : Option LandmarkFullDetails
  audioBuffer : Option AudioBuffer
  isPlaying : Bool
  audioContext : Option AudioCtx
  sourceNode : Option SourceNode
  fileInputValue : String
deriving Repr

/-- `sourceNode.stop()`. -/
def stopNode (n : SourceNode) : SourceNode :=
  { n with stopped := true }

/-- `resetApp` from src/App.tsx: stop any active source, clear the playing
flag, return to Idle and drop image, landmark and details, and clear the
file input.  (The `error` and `audioBuffer` fields are not touched by the
source.) -/
def resetApp (s : AppState) : AppState :=
  { s with
    sourceNode := s.sourceNode.map stopNode
    isPlaying := false
    status := .idle
    image := none
    landmark := none
    details := none
    fileInputValue := "" }

/-- `toggleAudio` from src/App.tsx: early-return unless both the audio
context and the decoded buffer exist; otherwise stop when playing, or start
a fresh source on the buffer when not. -/
def toggleAudio (s : AppState) : AppState :=
  match s.audioContext, s.audioBuffer with
  | some _, some buf =>
    if s.isPlaying then
      { s with sourceNode := s.sourceNode.map stopNode, isPlaying := false }
    else
      { s with sourceNode := some { buffer := buf, stopped := false }, isPlaying := true }
  | _, _ => s

/-- The TTS input computed in `startAnalysis`:
`description.length > 500 ? description.substring(0, 500) + "..." : description`. -/
def ttsText (description : String) : String :=
  if description.length > 500 then description.take 500 ++ "..." else description

/-! # Data-URI handling (handleFileSelect, src/App.tsx) -/

/-- JavaScript `String.prototype.split` with a one-character separator,
modelled on character lists: splits at every occurrence of the separator. -/
def jsSplit (sep : Char) : List Char → List (List Char)
  | [] => [[]]
  | c :: cs =>
    if c = sep then [] :: jsSplit sep cs
    else
      match jsSplit sep cs with
      | [] => [[c]]
      | g :: gs => (c :: g) :: gs

/-- `result.split(',')[1]` from `handleFileSelect`: the second segment of
the comma-split, or `undefined` when there is none. -/
def base64DataOf (s : List Char) : Option (List Char) :=
  (jsSplit ',' s)[1]?

/-- Specification-side reading of the claim: the substring following the
first comma of the string, if a comma exists. -/
def afterFirstComma : List Char → Option (List Char)
  | [] => none
  | c :: cs => if c = ',' then some cs else afterFirstComma cs

/-! # The pipeline (startAnalysis, src/App.tsx)

The three awaited service calls and the audio decode are suspension points
whose outcomes depend on the network and the remote models; they enter the
embedding as an `Oracle`.  `decodeBase64`/`decodeAudioData` live in
src/utils/audioUtils, which is not part of the sources here; for the
pipeline only their success or failure matters, so the oracle supplies the
decode outcome directly. -/

/-- Outcomes of the awaited calls inside one `startAnalysis` run.  Each is
an arbitrary function of the data the call receives. -/
structure Oracle where
  identify : Except String JsonValue
  details : JsonValue → Except String LandmarkFullDetails
  narrate : String → Except String String
  decode : String → Except String AudioBuffer

/-- The `catch` block of `startAnalysis`:
`setError({ message: e.message || "Something went wrong during analysis." })`
followed by `setStatus(AppStatus.ERROR)`. -/
def analysisCatch (s : AppState) (e : String) : AppState :=
  { s with
    error := some { message := if e = "" then "Something went wrong during analysis." else e }
    status := .error }

/-- `startAnalysis` from src/App.tsx: clear previous results, then run
identify, enrichment, narration (on the truncated description) and audio
decode in sequence, advancing the status before each step; any failure is
caught once and sets the error and the Error status.  The audio context is
created lazily (24 kHz) before decoding. -/
def startAnalysis (o : Oracle) (s0 : AppState) : AppState :=
  let s1 : AppState :=
    { s0 with
      error := none, landmark := none, details := none, audioBuffer := none
      status := .analyzingImage }
  match o.identify with
  | .error e => analysisCatch s1 e
  | .ok idResult =>
    let s2 := { s1 with landmark := some idResult, status := .searchingInfo }
    match o.details idResult with
    | .error e => analysisCatch s2 e
    | .ok det =>
      let s3 := { s2 with details := some det, status := .generatingAudio }
      match o.narrate (ttsText det.description) with
      | .error e => analysisCatch s3 e
      | .ok audioBase64 =>
        let s4 := { s3 with audioContext := some (s3.audioContext.getD { sampleRate := 24000 }) }
        match o.decode audioBase64 with
        | .error e => analysisCatch s4 e
        | .ok buf => { s4 with audioBuffer := some buf, status := .complete }

/-! # Concrete inputs used by witnesses and counterexamples -/

/-- The all-clear initial state. -/
def initState : AppState :=
  { status := .idle, image := none, error := none, landmark := none
    details := none, audioBuffer := none, isPlaying := false
    audioContext := none, sourceNode := none, fileInputValue := "" }

/-- A reachable Error-screen state: a failed analysis left an error, an
image and a stale landmark behind. -/
def errState : AppState :=
  { status := .error, image := some "data-uri", error := some { message := "Network failure" }
    landmark := some (.obj []), details := none, audioBuffer := none, isPlaying := false
    audioContext := none, sourceNode := none, fileInputValue := "f.jpg" }

/-- A Complete-screen state that has no decoded buffer (narration decode
result already discarded), used for the toggle no-op witness. -/
def noBufferState : AppState :=
  { status := .complete, image := some "data-uri", error := none
    landmark := some (.obj []), details := some { description := "d", sources := [] }
    audioBuffer := none, isPlaying := false
    audioContext := some { sampleRate := 24000 }, sourceNode := none, fileInputValue := "f.jpg" }

/-- An oracle on which every step succeeds. -/
def okOracle : Oracle :=
  { identify := .ok (.obj [("name", .str "Eiffel Tower"), ("visualDescription", .str "tower")])
    details := fun _ => .ok { description := "Built in 1889.", sources := [] }
    narrate := fun _ => .ok "UklGRg=="
    decode := fun _ => .ok { samples := [0, 1, -1] } }

/-- An oracle whose vision step fails with an empty message (exercising the
generic fallback text of the catch block). -/
def failOracle : Oracle :=
  { identify := .error ""
    details := fun _ => .ok { description := "", sources := [] }
    narrate := fun _ => .ok ""
    decode := fun _ => .ok { samples := [] } }

/-- Two grounding chunks sharing uri "a" with different titles. -/
def dupChunks : List GroundingChunk :=
  [ { web := some { uri := some "a", title := some "t1" } },
    { web := some { uri := some "a", title := some "t3" } } ]

/-- Grounding chunks whose uris are a, b, a, c, with an untitled chunk and
an empty-uri chunk mixed in. -/
def abacChunks : List GroundingChunk :=
  [ { web := some { uri := some "a", title := some "sa1" } },
    { web := some { uri := some "b", title := none } },
    { web := some { uri := some "", title := some "dropped" } },
    { web := some { uri := some "a", title := some "sa2" } },
    { web := some { uri := some "c", title := some "sc" } } ]

/-- 800 repetitions of a character. -/
def longDescription : String := String.mk (List.replicate 800 'a')

/-- 400 repetitions of a character. -/
def shortDescription : String := String.mk (List.replicate 400 'b')

/-- 500 repetitions of a character. -/
def exactDescription : String := String.mk (List.replicate 500 'c')

/-- A data-URI preamble as produced by `readAsDataURL` (no comma). -/
def dataUriPrefix : List Char := "data:image/jpeg;base64".data

/-- A base64 payload (no comma: the base64 alphabet has none). -/
def dataUriPayload : List Char := "iVBORw0KGgo=".data

/-- A vision response that is valid JSON and matches the requested
two-field schema. -/
def goodVisionJson : String :=
  "\x7b\"name\":\"Eiffel Tower\",\"visualDescription\":\"iron tower\"\x7d"

/-! # Lemmas about the JS-Map deduplication -/

theorem mapSet_head_eq (u : String) (v w : Source) (m : List (String × Source)) :
    mapSet ((u, v) :: m) u w = (u, w) :: m := by
  simp [mapSet]

theorem mapSet_cons_ne (u k : String) (v w : Source) (m : List (String × Source))
    (h : k ≠ u) : mapSet ((u, v) :: m) k w = (u, v) :: mapSet m k w := by
  simp [mapSet, Ne.symm h]

theorem dedupLoop_cons_key (u : String) (l : List Source) :
    ∀ (v : Source) (m : List (String × Source)),
      dedupLoop ((u, v) :: m) l
        = (u, lastD (l.filter (fun s => s.uri = u)) v)
            :: dedupLoop m (l.filter (fun s => s.uri ≠ u)) := by
  induction l with
  | nil => intro v m; simp [dedupLoop, lastD]
  | cons s l ih =>
    intro v m
    by_cases h : s.uri = u
    · have h1 : mapSet ((u, v) :: m) s.uri s = (u, s) :: m := by
        subst h; exact mapSet_head_eq _ _ _ _
      show dedupLoop (mapSet ((u, v) :: m) s.uri s) l = _
      rw [h1, ih s m]
      simp [List.filter_cons, h, lastD]
    · have h1 : mapSet ((u, v) :: m) s.uri s = (u, v) :: mapSet m s.uri s :=
        mapSet_cons_ne u s.uri v s m h
      show dedupLoop (mapSet ((u, v) :: m) s.uri s) l = _
      rw [h1, ih v (mapSet m s.uri s)]
      simp only [List.filter_cons]
      simp [h, dedupLoop]

theorem uniqueSources_cons (s : Source) (l : List Source) :
    uniqueSources (s :: l)
      = lastD (l.filter (fun t => t.uri = s.uri)) s
          :: uniqueSources (l.filter (fun t => t.uri ≠ s.uri)) := by
  show (dedupLoop (mapSet [] s.uri s) l).map Prod.snd = _
  rw [show mapSet [] s.uri s = [(s.uri, s)] from rfl, dedupLoop_cons_key]
  simp [uniqueSources]

theorem lastD_uri (u : String) : ∀ (xs : List Source) (d : Source),
    (∀ x ∈ xs, x.uri = u) → d.uri = u → (lastD xs d).uri = u := by
  intro xs
  induction xs with
  | nil => intro d _ hd; exact hd
  | cons x xs ih =>
    intro d h _
    exact ih x (fun y hy => h y (List.mem_cons_of_mem _ hy)) (h x (List.mem_cons_self _ _))

theorem filter_uri_mem (u : String) (l : List Source) :
    ∀ x ∈ l.filter (fun t => t.uri = u), x.uri = u := by
  intro x hx
  have := List.mem_filter.mp hx
  simpa using this.2

theorem mapSet_snd_mem (x : Source) : ∀ (m : List (String × Source)) (k : String) (v : Source),
    x ∈ (mapSet m k v).map Prod.snd → x ∈ m.map Prod.snd ∨ x = v := by
  intro m
  induction m with
  | nil =>
    intro k v h
    simp [mapSet] at h
    right; exact h
  | cons p m ih =>
    intro k v h
    by_cases hk : p.1 = k
    · rw [show mapSet (p :: m) k v = (k, v) :: m from by simp [mapSet, hk]] at h
      simp only [List.map_cons, List.mem_cons] at h
      rcases h with h | h
      · right; exact h
      · left; simp only [List.map_cons, List.mem_cons]; right; exact h
    · rw [show mapSet (p :: m) k v = p :: mapSet m k v from by simp [mapSet, hk]] at h
      simp only [List.map_cons, List.mem_cons] at h
      rcases h with h | h
      · left; simp only [List.map_cons, List.mem_cons]; left; exact h
      · rcases ih k v h with h2 | h2
        · left; simp only [List.map_cons, List.mem_cons]; right; exact h2
        · right; exact h2

theorem dedupLoop_snd_mem (x : Source) : ∀ (l : List Source) (m : List (String × Source)),
    x ∈ (dedupLoop m l).map Prod.snd → x ∈ m.map Prod.snd ∨ x ∈ l := by
  intro l
  induction l with
  | nil => intro m h; left; exact h
  | cons s l ih =>
    intro m h
    rcases ih (mapSet m s.uri s) h with h2 | h2
    · rcases mapSet_snd_mem x m s.uri s h2 with h3 | h3
      · left; exact h3
      · right; simp [h3]
    · right; exact List.mem_cons_of_mem _ h2

theorem uniqueSources_mem (x : Source) (l : List Source) (h : x ∈ uniqueSources l) :
    x ∈ l := by
  rcases dedupLoop_snd_mem x l [] h with h2 | h2
  · simp at h2
  · exact h2

theorem filter_map_uri (u : String) (l : List Source) :
    (l.filter (fun t => t.uri ≠ u)).map Source.uri
      = (l.map Source.uri).filter (fun v => v ≠ u) := by
  induction l with
  | nil => rfl
  | cons s l ih => by_cases h : s.uri = u <;> simp_all [List.filter_cons]

theorem uniqueSources_uris_aux : ∀ (n : Nat) (l : List Source), l.length ≤ n →
    (uniqueSources l).map Source.uri = dedupFirst (l.map Source.uri) := by
  intro n
  induction n with
  | zero =>
    intro l hl
    have : l = [] := List.eq_nil_of_length_eq_zero (Nat.le_zero.mp hl)
    subst this
    simp [uniqueSources, dedupLoop, dedupFirst]
  | succ n ih =>
    intro l hl
    match l with
    | [] => simp [uniqueSources, dedupLoop, dedupFirst]
    | s :: l =>
      rw [uniqueSources_cons]
      have hlen : (l.filter (fun t => t.uri ≠ s.uri)).length ≤ n :=
        le_trans (List.length_filter_le _ _) (by simpa using hl)
      simp only [List.map_cons]
      rw [ih _ hlen, filter_map_uri]
      rw [show dedupFirst (s.uri :: l.map Source.uri)
            = s.uri :: dedupFirst ((l.map Source.uri).filter (fun v => v ≠ s.uri)) from
          by rw [dedupFirst]]
      congr 1
      exact lastD_uri s.uri _ s (filter_uri_mem s.uri l) rfl

theorem uniqueSources_uris (l : List Source) :
    (uniqueSources l).map Source.uri = dedupFirst (l.map Source.uri) :=
  uniqueSources_uris_aux l.length l le_rfl

theorem filter_filter_uri (u w : String) (h : w ≠ u) (l : List Source) :
    (l.filter (fun t => t.uri ≠ u)).filter (fun t => t.uri = w)
      = l.filter (fun t => t.uri = w) := by
  induction l with
  | nil => rfl
  | cons s l ih =>
    by_cases hs : s.uri = u
    · have hw : ¬ s.uri = w := by intro hh; exact h (hh ▸ hs)
      rw [List.filter_cons, if_neg (by simpa using hs), ih,
        List.filter_cons, if_neg (by simpa using hw)]
    · rw [List.filter_cons, if_pos (by simpa using hs)]
      by_cases hw : s.uri = w
      · rw [List.filter_cons, if_pos (by simpa using hw), ih,
          List.filter_cons, if_pos (by simpa using hw)]
      · rw [List.filter_cons, if_neg (by simpa using hw), ih,
          List.filter_cons, if_neg (by simpa using hw)]

theorem uniqueSources_last_aux : ∀ (n : Nat) (l : List Source), l.length ≤ n →
    ∀ x ∈ uniqueSources l, myLast? (l.filter (fun t => t.uri = x.uri)) = some x := by
  intro n
  induction n with
  | zero =>
    intro l hl
    have : l = [] := List.eq_nil_of_length_eq_zero (Nat.le_zero.mp hl)
    subst this
    intro x hx
    simp [uniqueSources, dedupLoop] at hx
  | succ n ih =>
    intro l hl
    match l with
    | [] => intro x hx; simp [uniqueSources, dedupLoop] at hx
    | s :: l =>
      intro x hx
      have hlen : (l.filter (fun t => t.uri ≠ s.uri)).length ≤ n :=
        le_trans (List.length_filter_le _ _) (by simpa using hl)
      rw [uniqueSources_cons] at hx
      rcases List.mem_cons.mp hx with hx | hx
      · have hxu : x.uri = s.uri := by
          rw [hx]; exact lastD_uri s.uri _ s (filter_uri_mem s.uri l) rfl
        rw [hxu]
        have hfc : (s :: l).filter (fun t => t.uri = s.uri)
            = s :: l.filter (fun t => t.uri = s.uri) := by
          simp [List.filter_cons]
        rw [hfc]
        show some (lastD (l.filter (fun t => t.uri = s.uri)) s) = some x
        rw [hx]
      · have hmem : x ∈ l.filter (fun t => t.uri ≠ s.uri) := uniqueSources_mem _ _ hx
        have hne : x.uri ≠ s.uri := by
          have := List.mem_filter.mp hmem
          simpa using this.2
        have ihx := ih _ hlen x hx
        rw [filter_filter_uri s.uri x.uri hne l] at ihx
        have hs : ¬ s.uri = x.uri := fun hh => hne hh.symm
        have hfc : (s :: l).filter (fun t => t.uri = x.uri)
            = l.filter (fun t => t.uri = x.uri) := by
          simp [List.filter_cons, hs]
        rw [hfc]
        exact ihx

theorem uniqueSources_last (l : List Source) :
    ∀ x ∈ uniqueSources l, myLast? (l.filter (fun t => t.uri = x.uri)) = some x :=
  uniqueSources_last_aux l.length l le_rfl

/-! # Lemmas about the comma split -/

theorem jsSplit_append (pre rest : List Char) (h : ',' ∉ pre) :
    jsSplit ',' (pre ++ ',' :: rest) = pre :: jsSplit ',' rest := by
  induction pre with
  | nil => simp [jsSplit]
  | cons c pre ih =>
    have hc : ¬ c = ',' := fun hh => h (hh ▸ List.mem_cons_self _ _)
    have ih2 := ih (fun hm => h (List.mem_cons_of_mem _ hm))
    simp [jsSplit, hc, ih2]

theorem jsSplit_no_sep (rest : List Char) (h : ',' ∉ rest) :
    jsSplit ',' rest = [rest] := by
  induction rest with
  | nil => rfl
  | cons c cs ih =>
    have hc : ¬ c = ',' := fun hh => h (hh ▸ List.mem_cons_self _ _)
    have ih2 := ih (fun hm => h (List.mem_cons_of_mem _ hm))
    simp [jsSplit, hc, ih2]

theorem afterFirstComma_append (pre rest : List Char) (h : ',' ∉ pre) :
    afterFirstComma (pre ++ ',' :: rest) = some rest := by
  induction pre with
  | nil => simp [afterFirstComma]
  | cons c pre ih =>
    have hc : ¬ c = ',' := fun hh => h (hh ▸ List.mem_cons_self _ _)
    simp [afterFirstComma, hc, ih (fun hm => h (List.mem_cons_of_mem _ hm))]

/-! # The claims -/

/-- C2 counterexample: from the reachable Error state `errState`, `resetApp`
does return to Idle, but the `error` field is left set (the source's
`resetApp` never calls `setError(null)`), contradicting "the error cleared
(null)". -/
theorem c2_counterexample :
    errState.status ≠ .idle
    ∧ (resetApp errState).status = .idle
    ∧ (resetApp errState).error ≠ none := by
  refine ⟨by decide, rfl, by simp [resetApp, errState]⟩

/-- C2 (amended): from any non-Idle state, `resetApp` yields Idle with null
image, null analysis result, null details, playback stopped (the playing
flag false and any active source stopped) — but the error field is left
unchanged, not cleared (it is cleared only at the start of the next
analysis). -/
theorem c2_reset_amended (s : AppState) (_h : s.status ≠ .idle) :
    (resetApp s).status = .idle
    ∧ (resetApp s).image = none
    ∧ (resetApp s).landmark = none
    ∧ (resetApp s).details = none
    ∧ (resetApp s).isPlaying = false
    ∧ (resetApp s).sourceNode = s.sourceNode.map stopNode
    ∧ (resetApp s).error = s.error := by
  simp [resetApp]

/-- C2 witness: the amended reset property at the concrete Error state. -/
theorem c2_witness :
    (resetApp errState).status = .idle ∧ (resetApp errState).error = errState.error :=
  ⟨(c2_reset_amended errState (by decide)).1,
   (c2_reset_amended errState (by decide)).2.2.2.2.2.2⟩

/-- C4: the narration input is the description truncated to its first 500
characters with an ellipsis appended when longer than 500 characters, and
the unmodified description otherwise. -/
theorem c4_truncation (d : String) :
    (d.length > 500 → ttsText d = d.take 500 ++ "...")
    ∧ (d.length ≤ 500 → ttsText d = d) := by
  constructor
  · intro h; simp [ttsText, h]
  · intro h; simp [ttsText, Nat.not_lt.mpr h]

/-- C4 witness: an 800-character description is truncated to its first 500
characters plus an ellipsis; a 400-character description passes unchanged. -/
theorem c4_witness :
    longDescription.length > 500
    ∧ ttsText longDescription = longDescription.take 500 ++ "..."
    ∧ shortDescription.length ≤ 500
    ∧ ttsText shortDescription = shortDescription :=
  ⟨by decide, (c4_truncation longDescription).1 (by decide),
   by decide, (c4_truncation shortDescription).2 (by decide)⟩

/-- C10: a description of length exactly 500 is sent unmodified — the
truncation condition is strictly greater than 500. -/
theorem c10_exact_length (d : String) (h : d.length = 500) : ttsText d = d := by
  simp [ttsText, h]

/-- C10 witness: the exactly-500-character description is unchanged. -/
theorem c10_witness : ttsText exactDescription = exactDescription :=
  c10_exact_length exactDescription (by decide)

/-- C7 counterexample: a response whose inline data field holds the empty
string does carry a (degenerate) payload, yet `generateNarration` fails
(JavaScript `!audioData` is true for `""`), so "fails if and only if no
inline audio payload is present" does not hold for the present-but-empty
payload. -/
theorem c7_counterexample :
    (some "" : Option String) ≠ none
    ∧ generateNarration true (some "") = .error "No audio generated" :=
  ⟨by simp, rfl⟩

/-- C7 (amended): `generateNarration` fails with the NoAudioGenerated error
exactly when the inline data field is absent or the empty string; a
non-empty payload is returned unchanged. -/
theorem c7_narration_amended (d : Option String) :
    ((generateNarration true d).isOk = false ↔ d = none ∨ d = some "")
    ∧ (∀ t, d = some t → t ≠ "" → generateNarration true d = .ok t) := by
  constructor
  · cases d with
    | none => simp [generateNarration, Except.isOk, Except.toBool]
    | some t =>
      by_cases h : t = "" <;> simp [generateNarration, Except.isOk, Except.toBool, h]
  · intro t ht hne
    subst ht
    simp [generateNarration, hne]

/-- C7 witness: a non-empty payload is returned unchanged. -/
theorem c7_witness :
    generateNarration true (some "UklGRg==") = .ok "UklGRg==" :=
  (c7_narration_amended (some "UklGRg==")).2 "UklGRg==" rfl (by decide)

/-- C8: toggling audio when no decoded buffer exists is a no-op — the whole
application state is returned unchanged (and, being a total function, no
exception is raised). -/
theorem c8_toggle_noop (s : AppState) (h : s.audioBuffer = none) :
    toggleAudio s = s := by
  cases hc : s.audioContext <;> simp [toggleAudio, h, hc]

/-- C8 witness: the no-op at a concrete Complete state without a buffer. -/
theorem c8_witness : toggleAudio noBufferState = noBufferState :=
  c8_toggle_noop noBufferState rfl

/-- C9: for a data-URI of the `readAsDataURL` shape — a comma-free preamble,
a comma, and a comma-free base64 payload — `split(',')[1]` yields exactly
the substring following the first comma, namely the payload. -/
theorem c9_split_first_comma (pre rest : List Char) (hpre : ',' ∉ pre)
    (hrest : ',' ∉ rest) :
    base64DataOf (pre ++ ',' :: rest) = some rest
    ∧ base64DataOf (pre ++ ',' :: rest) = afterFirstComma (pre ++ ',' :: rest) := by
  have h1 : jsSplit ',' (pre ++ ',' :: rest) = pre :: [rest] := by
    rw [jsSplit_append pre rest hpre, jsSplit_no_sep rest hrest]
  constructor
  · simp [base64DataOf, h1]
  · rw [afterFirstComma_append pre rest hpre]
    simp [base64DataOf, h1]

/-- C9 witness: the split at a concrete JPEG data-URI. -/
theorem c9_witness :
    base64DataOf (dataUriPrefix ++ ',' :: dataUriPayload) = some dataUriPayload :=
  (c9_split_first_comma dataUriPrefix dataUriPayload (by decide) (by decide)).1

/-- C3 counterexample: the text `"\x7b\x7d"` (an empty JSON object) is valid
JSON that does not match the required two-field schema, yet
`identifyLandmark` succeeds and returns it — `JSON.parse`'s result is cast
without any schema check, so no parse error is raised. -/
theorem c3_counterexample :
    jsonParse "\x7b\x7d" = some (.obj [])
    ∧ identifyLandmark true (some "\x7b\x7d") = .ok (.obj []) :=
  ⟨rfl, rfl⟩

/-- C3 (amended): `identifyLandmark` fails with the EmptyResponse-class
error exactly when the response text is absent or empty; it fails with a
parse error exactly when the non-empty text is not valid JSON; any valid
JSON — whether or not it matches the two-field schema — is returned parsed,
with no client-side schema validation. -/
theorem c3_identify_amended (t : Option String) :
    ((t = none ∨ t = some "") →
      identifyLandmark true t = .error "No response from vision model")
    ∧ (∀ s, t = some s → s ≠ "" → jsonParse s = none →
        identifyLandmark true t = .error "SyntaxError: JSON.parse: unexpected input")
    ∧ (∀ s v, t = some s → s ≠ "" → jsonParse s = some v →
        identifyLandmark true t = .ok v) := by
  refine ⟨?_, ?_, ?_⟩
  · rintro (h | h) <;> subst h <;> simp [identifyLandmark]
  · intro s hs hne hp
    subst hs
    simp [identifyLandmark, hne, hp]
  · intro s v hs hne hp
    subst hs
    simp [identifyLandmark, hne, hp]

/-- C3 witness: a schema-conforming response parses and is returned; an
absent response text raises the EmptyResponse-class error. -/
theorem c3_witness :
    identifyLandmark true (some goodVisionJson)
      = .ok (.obj [("name", .str "Eiffel Tower"), ("visualDescription", .str "iron tower")])
    ∧ identifyLandmark true none = .error "No response from vision model" :=
  ⟨(c3_identify_amended (some goodVisionJson)).2.2 goodVisionJson _ rfl (by decide) rfl,
   (c3_identify_amended none).1 (Or.inl rfl)⟩

/-- C5: after any `startAnalysis` run, Complete implies the landmark, the
details and the audio buffer are all present; Error implies an error with a
non-empty message; and the final status is Complete exactly when it is not
Error — one of the two always holds, never both. -/
theorem c5_pipeline_invariants (o : Oracle) (s0 : AppState) :
    ((startAnalysis o s0).status = .complete →
      (startAnalysis o s0).landmark.isSome = true
      ∧ (startAnalysis o s0).details.isSome = true
      ∧ (startAnalysis o s0).audioBuffer.isSome = true)
    ∧ ((startAnalysis o s0).status = .error →
      ∃ e, (startAnalysis o s0).error = some e ∧ e.message ≠ "")
    ∧ ((startAnalysis o s0).status = .complete
        ↔ ¬ (startAnalysis o s0).status = .error) := by
  have hmsg : ∀ e : String,
      (if e = "" then "Something went wrong during analysis." else e) ≠ "" := by
    intro e
    by_cases h : e = "" <;> simp [h]
  unfold startAnalysis
  rcases h1 : o.identify with e | idr <;> simp only [h1]
  · exact ⟨by simp [analysisCatch],
      fun _ => ⟨{ message := if e = "" then "Something went wrong during analysis." else e },
        by simp [analysisCatch], hmsg e⟩,
      by simp [analysisCatch]⟩
  · rcases h2 : o.details idr with e | det <;> simp only [h2]
    · exact ⟨by simp [analysisCatch],
        fun _ => ⟨{ message := if e = "" then "Something went wrong during analysis." else e },
          by simp [analysisCatch], hmsg e⟩,
        by simp [analysisCatch]⟩
    · rcases h3 : o.narrate (ttsText det.description) with e | audioBase64 <;> simp only [h3]
      · exact ⟨by simp [analysisCatch],
          fun _ => ⟨{ message := if e = "" then "Something went wrong during analysis." else e },
            by simp [analysisCatch], hmsg e⟩,
          by simp [analysisCatch]⟩
      · rcases h4 : o.decode audioBase64 with e | buf <;> simp only [h4]
        · exact ⟨by simp [analysisCatch],
            fun _ => ⟨{ message := if e = "" then "Something went wrong during analysis." else e },
              by simp [analysisCatch], hmsg e⟩,
            by simp [analysisCatch]⟩
        · exact ⟨fun _ => ⟨by simp, by simp, by simp⟩, by simp, by simp⟩

/-- C5 witness: an all-success oracle ends Complete with a buffer, and an
oracle whose vision call rejects with an empty message ends in Error with
the non-empty fallback message. -/
theorem c5_witness :
    (startAnalysis okOracle initState).status = .complete
    ∧ (startAnalysis okOracle initState).audioBuffer.isSome = true
    ∧ (startAnalysis failOracle initState).status = .error
    ∧ ∃ e, (startAnalysis failOracle initState).error = some e ∧ e.message ≠ "" :=
  ⟨rfl, ((c5_pipeline_invariants okOracle initState).1 rfl).2.2,
   rfl, (c5_pipeline_invariants failOracle initState).2.1 rfl⟩

/-- C6: `getLandmarkDetails` returns the response text as the description
(with the fixed fallback when the text is absent or empty) and the mapped,
empty-uri-filtered, deduplicated source list (possibly empty); every chunk
maps to an entry whose title defaults to "Source" when absent, every
returned entry has a non-empty uri, and every returned entry comes from
some input chunk. -/
theorem c6_details_mapping (respText : Option String) (chunks : List GroundingChunk) :
    getLandmarkDetails true respText (some chunks)
      = .ok { description := jsOrStr respText "Could not retrieve details."
              sources := uniqueSources (sourcesOf chunks) }
    ∧ (respText = none ∨ respText = some "" →
        jsOrStr respText "Could not retrieve details." = "Could not retrieve details.")
    ∧ (∀ t, respText = some t → t ≠ "" →
        jsOrStr respText "Could not retrieve details." = t)
    ∧ (∀ c : GroundingChunk, c.web.bind Web.title = none →
        (chunkToSource c).title = "Source")
    ∧ (∀ x ∈ uniqueSources (sourcesOf chunks), x.uri ≠ "")
    ∧ (∀ x ∈ uniqueSources (sourcesOf chunks), ∃ c ∈ chunks, x = chunkToSource c) := by
  refine ⟨rfl, ?_, ?_, ?_, ?_, ?_⟩
  · rintro (h | h) <;> subst h <;> simp [jsOrStr]
  · intro t ht hne
    subst ht
    simp [jsOrStr, hne]
  · intro c hc
    simp [chunkToSource, hc, jsOrStr]
  · intro x hx
    have h1 := uniqueSources_mem x _ hx
    have h2 := List.mem_filter.mp h1
    simpa using h2.2
  · intro x hx
    have h1 := uniqueSources_mem x _ hx
    have h2 := (List.mem_filter.mp h1).1
    rcases List.mem_map.mp h2 with ⟨c, hc, he⟩
    exact ⟨c, hc, he.symm⟩

/-- C6 witness: the mapping at concrete inputs — a non-empty text is kept,
an untitled chunk gets title "Source", the entry for uri "c" is returned
with a non-empty uri, and an empty chunk list yields an empty source
list. -/
theorem c6_witness :
    jsOrStr (some "Rich history.") "Could not retrieve details." = "Rich history."
    ∧ (chunkToSource { web := some { uri := some "b", title := none } }).title = "Source"
    ∧ (Source.mk "sc" "c") ∈ uniqueSources (sourcesOf abacChunks)
    ∧ (Source.mk "sc" "c").uri ≠ ""
    ∧ uniqueSources (sourcesOf []) = [] :=
  ⟨(c6_details_mapping (some "Rich history.") abacChunks).2.2.1 _ rfl (by decide),
   (c6_details_mapping (some "Rich history.") abacChunks).2.2.2.1 _ rfl,
   by decide,
   (c6_details_mapping (some "Rich history.") abacChunks).2.2.2.2.1 _ (by decide),
   rfl⟩

/-- C1 counterexample: two chunks share uri "a" with titles "t1" then "t3";
the deduplicated result keeps the last occurrence's entry (title "t3"), not
the first occurrence's, refuting "the first occurrence of each uri wins
(its entry, including its title, is the one retained)". -/
theorem c1_counterexample :
    sourcesOf dupChunks
      = [{ title := "t1", uri := "a" }, { title := "t3", uri := "a" }]
    ∧ getLandmarkDetails true (some "x") (some dupChunks)
      = .ok { description := "x", sources := [{ title := "t3", uri := "a" }] }
    ∧ ({ title := "t1", uri := "a" } : Source) ∉ uniqueSources (sourcesOf dupChunks) :=
  ⟨rfl, rfl, by decide⟩

/-- C1 (amended): the sources list returned by `getLandmarkDetails` is
deduplicated by uri in first-seen relative order (uris [a,b,a,c] yield
[a,b,c]), but for each uri the retained entry (in particular its title) is
the LAST occurrence with that uri, placed at the first occurrence's
position. -/
theorem c1_dedup (respText : Option String) (chunks : List GroundingChunk) :
    getLandmarkDetails true respText (some chunks)
      = .ok { description := jsOrStr respText "Could not retrieve details."
              sources := uniqueSources (sourcesOf chunks) }
    ∧ (uniqueSources (sourcesOf chunks)).map Source.uri
        = dedupFirst ((sourcesOf chunks).map Source.uri)
    ∧ ∀ x ∈ uniqueSources (sourcesOf chunks),
        myLast? ((sourcesOf chunks).filter (fun t => t.uri = x.uri)) = some x :=
  ⟨rfl, uniqueSources_uris _, uniqueSources_last _⟩

/-- C1 witness: at chunks whose (non-empty) uris run a, b, a, c the result's
uris are [a, b, c] in that order, and the entry kept for uri "a" is the last
one with that uri. -/
theorem c1_witness :
    (sourcesOf abacChunks).map Source.uri = ["a", "b", "a", "c"]
    ∧ (uniqueSources (sourcesOf abacChunks)).map Source.uri = ["a", "b", "c"]
    ∧ myLast? ((sourcesOf abacChunks).filter
        (fun t => t.uri = (Source.mk "sa2" "a").uri)) = some (Source.mk "sa2" "a") := by
  refine ⟨rfl, by decide, (c1_dedup (some "x") abacChunks).2.2 _ (by decide)⟩

end LensLore
